import Mathlib

/-!
Verification of the pica UWB emulator core (`src/lib.rs`) against its
natural-language specification.

The development shallowly embeds the control-plane code of `src/lib.rs`:
byte streams are `List Nat` (each element a `u8` value), the device/anchor
registry is an association list, and fallible code paths (Rust `panic!`,
`unwrap`, `assert!`) are rendered as `Option` with `none` marking a panic.

The generated packet codec (`packets` module), `device.rs`, `session.rs`,
`position.rs` and `mac_address.rs` are collaborators that are not part of
`src/`; the definitions that stand in for them are marked
`Modelled from the spec:` in their doc comments and stay as close as
possible to the spec's description of the collaborator contracts.
-/

set_option maxHeartbeats 1000000
set_option maxRecDepth 8192

/-! ## Message types and header fields (UCI codec collaborator) -/

/-- Modelled from the spec: the codec's `MessageType` enum. The spec (§4.1)
says the top 3 bits of header byte 0 carry the message type
(`Command`, `Response`, `Notification`, `Data`, …); the numeric values are
those of the UCI codec collaborator. -/
inductive MessageType
  | Data
  | Command
  | Response
  | Notification
deriving DecidableEq, Repr

/-- Modelled from the spec: `MessageType::try_from` of the generated codec;
fails on reserved 3-bit values. -/
def MessageType.tryFrom : Nat → Option MessageType
  | 0 => some .Data
  | 1 => some .Command
  | 2 => some .Response
  | 3 => some .Notification
  | _ => none

/-- Modelled from the spec: `u8::from(MessageType)` of the generated codec. -/
def MessageType.toU8 : MessageType → Nat
  | .Data => 0
  | .Command => 1
  | .Response => 2
  | .Notification => 3

/-- `get_message_type` (src/lib.rs): extract the message type from the first
3 bits of the passed header byte, defaulting to `Command` on unknown values
(`unwrap_or(MessageType::Command)`). -/
def get_message_type (byte : Nat) : MessageType :=
  (MessageType.tryFrom ((byte >>> 5) &&& 0x7)).getD .Command

/-- Modelled from the spec: the codec's `PacketBoundaryFlag` enum
(`Complete = 0`, `NotComplete = 1`), bit 4 of header byte 0. -/
inductive PacketBoundaryFlag
  | Complete
  | NotComplete
deriving DecidableEq, Repr

def PacketBoundaryFlag.toU8 : PacketBoundaryFlag → Nat
  | .Complete => 0
  | .NotComplete => 1

/-- The Packet Boundary Flag of a header byte 0: bit 4. -/
def get_pbf (byte : Nat) : PacketBoundaryFlag :=
  if (byte >>> 4) &&& 1 = 0 then .Complete else .NotComplete

/-- `MAX_CTRL_PACKET_PAYLOAD_SIZE` (src/lib.rs). -/
def MAX_CTRL_PACKET_PAYLOAD_SIZE : Nat := 255
/-- `MAX_DATA_PACKET_PAYLOAD_SIZE` (src/lib.rs). -/
def MAX_DATA_PACKET_PAYLOAD_SIZE : Nat := 1024
/-- `HEADER_SIZE` (src/lib.rs). -/
def HEADER_SIZE : Nat := 4

/-! ## Connection::read

`Connection::read` is embedded as a function from the socket's byte stream
to `Option (packet × remaining stream)`; `none` models an I/O error
(`read_exact` hitting end of stream) or a header-parse error.  The
accumulator `acc` holds the payload bytes gathered from previous segments:
the Rust code overwrites `complete_packet[0..4]` with each new header, so
the buffer is always (last header ++ all payloads so far). -/

def connReadAux (acc stream : List Nat) : Option (List Nat × List Nat) :=
  if h4 : stream.length < 4 then none
  else
    match MessageType.tryFrom ((stream.headD 0 >>> 5) &&& 0x7) with
    | none => none
    | some mt =>
      -- Payload length per message type: u16 LE for data, u8 for control.
      let plen :=
        if mt = MessageType.Data then stream.getD 2 0 + 256 * stream.getD 3 0
        else stream.getD 3 0
      let rest := stream.drop 4
      if hp : rest.length < plen then none
      else
        let payload := rest.take plen
        let rest2 := rest.drop plen
        let header := stream.take 4
        if mt = MessageType.Data then some (header ++ (acc ++ payload), rest2)
        else if (stream.headD 0 >>> 4) &&& 1 = 0 then
          some (header ++ (acc ++ payload), rest2)
        else connReadAux (acc ++ payload) rest2
termination_by stream.length
decreasing_by
  simp only [List.length_drop]
  omega

/-- `Connection::read` (src/lib.rs): read one UCI packet from the stream,
reassembling segmented control packets, returning data fragments
immediately. -/
def connRead (stream : List Nat) : Option (List Nat × List Nat) :=
  connReadAux [] stream

/-! ## Connection::write

`Connection::write` is embedded as a function from the logical packet to
the byte stream emitted on the socket.  The loop keeps the original header
bytes 0..3 (byte 3 is zeroed before the loop but always overwritten with a
length field before each emit), updates the PBF bit and the length field
per chunk, and emits header ++ chunk. -/

def connWriteLoop (h0 h1 h2 : Nat) (payload : List Nat) : List Nat :=
  let chunk :=
    min payload.length
      (if get_message_type h0 = MessageType.Data then MAX_DATA_PACKET_PAYLOAD_SIZE
       else MAX_CTRL_PACKET_PAYLOAD_SIZE)
  -- header_bytes[0] &= !PBF_MASK; header_bytes[0] |= (pbf as u8) << 4;
  let pbf : Nat := if chunk < payload.length then 1 else 0
  let h0s := (h0 &&& 0xEF) ||| (pbf <<< 4)
  let header :=
    if get_message_type h0 = MessageType.Data then [h0s, h1, chunk % 256, chunk / 256]
    else [h0s, h1, h2, chunk]
  let seg := header ++ payload.take chunk
  if (payload.drop chunk).isEmpty then seg
  else seg ++ connWriteLoop h0 h1 h2 (payload.drop chunk)
termination_by payload.length
decreasing_by
  simp only [List.isEmpty_iff, List.drop_eq_nil_iff, not_le,
    MAX_DATA_PACKET_PAYLOAD_SIZE, MAX_CTRL_PACKET_PAYLOAD_SIZE] at *
  simp only [List.length_drop]
  split at * <;> omega

/-- `Connection::write` (src/lib.rs): peel off the caller's 4-byte header,
then emit the payload as segments.  `none` models the panic on a packet
shorter than its header. -/
def connWrite (packet : List Nat) : Option (List Nat) :=
  if packet.length < 4 then none
  else
    some (connWriteLoop (packet.getD 0 0) (packet.getD 1 0) (packet.getD 2 0)
      (packet.drop 4))

/-! ## Parse-error response policy (`parse_uci_packet`) -/

/-- Modelled from the spec: the UCI status codes used by the parse-error
policy, with the codec collaborator's numeric values. -/
inductive UciStatusCode
  | UciStatusOk
  | UciStatusUnknownGid
  | UciStatusUnknownOid
deriving DecidableEq, Repr

def UciStatusCode.toU8 : UciStatusCode → Nat
  | .UciStatusOk => 0
  | .UciStatusUnknownGid => 7
  | .UciStatusUnknownOid => 8

/-- `UciParseResult` (src/lib.rs).  The typed command / data payloads are
opaque collaborator values; the raw bytes are carried instead. -/
inductive UciParseResult
  | UciCommand (bytes : List Nat)
  | UciData (bytes : List Nat)
  | Err (response : List Nat)
  | Skip
deriving DecidableEq, Repr

/-- `parse_uci_packet` (src/lib.rs).  The codec collaborator is abstracted
by three predicates: `parseDataOk` (`DataPacket::parse` succeeds),
`parseControlOk` (`ControlPacket::parse` succeeds), `controlIsCommand`
(the parsed control packet converts into a `UciCommand`), and
`knownGid` (`GroupId::try_from(group_id)` succeeds). -/
def parse_uci_packet (parseControlOk parseDataOk controlIsCommand : List Nat → Bool)
    (knownGid : Nat → Bool) (bytes : List Nat) : UciParseResult :=
  let message_type := get_message_type (bytes.headD 0)
  match message_type with
  | .Data =>
    if parseDataOk bytes then .UciData bytes else .Skip
  | mt =>
    if parseControlOk bytes then
      if controlIsCommand bytes then .UciCommand bytes else .Skip
    else
      let group_id := bytes.headD 0 &&& 0xf
      let opcode_id := bytes.getD 1 0 &&& 0x3f
      match mt, knownGid group_id with
      | .Command, true =>
        .Err [(MessageType.Response.toU8 <<< 5) ||| group_id, opcode_id, 0, 1,
              UciStatusCode.UciStatusUnknownOid.toU8]
      | .Command, false =>
        .Err [(MessageType.Response.toU8 <<< 5) ||| group_id, opcode_id, 0, 1,
              UciStatusCode.UciStatusUnknownGid.toU8]
      | _, _ => .Skip

/-! ## Helper lemmas on header-byte arithmetic -/

lemma errByte_message_type :
    ∀ g < 16, get_message_type ((MessageType.Response.toU8 <<< 5) ||| g)
      = MessageType.Response := by decide

lemma errByte_and_EF :
    ∀ g < 16, ((MessageType.Response.toU8 <<< 5) ||| g) &&& 0xEF
      = (MessageType.Response.toU8 <<< 5) ||| g := by decide

lemma gid_lt_16 (b : Nat) : b &&& 0xf < 16 :=
  Nat.lt_succ_of_le Nat.and_le_right

/-- Writing a 5-byte control packet whose payload-length byte is 1 emits
exactly its own bytes: one segment, PBF untouched when already clear. -/
lemma connWrite_five (b0 o s : Nat)
    (hmt : get_message_type b0 ≠ MessageType.Data)
    (hEF : b0 &&& 0xEF = b0) :
    connWrite [b0, o, 0, 1, s] = some [b0, o, 0, 1, s] := by
  unfold connWrite
  simp only [List.length_cons, List.length_nil, List.getD, List.drop]
  rw [if_neg (by omega)]
  unfold connWriteLoop
  simp [hmt, hEF, MAX_CTRL_PACKET_PAYLOAD_SIZE]

/-! ## C2: parse-error response policy -/

/-- C2: an inbound control packet that fails to parse and whose message type
is `Command` yields exactly the 5-byte response
`[(Response << 5) | (input[0] & 0x0F), input[1] & 0x3F, 0, 1, status]`,
with status `UnknownGid` when the 4-bit group id is unrecognized and
`UnknownOid` otherwise, and writing that response back emits exactly those
bytes; unparseable non-command control packets and unparseable data packets
are skipped (no response, no state change). -/
theorem C2_parse_error_response
    (pcOk pdOk isCmd : List Nat → Bool) (knownGid : Nat → Bool) (bytes : List Nat) :
    (get_message_type (bytes.headD 0) = MessageType.Command → pcOk bytes = false →
      parse_uci_packet pcOk pdOk isCmd knownGid bytes =
        UciParseResult.Err
          [(MessageType.Response.toU8 <<< 5) ||| (bytes.headD 0 &&& 0xf),
           bytes.getD 1 0 &&& 0x3f, 0, 1,
           (if knownGid (bytes.headD 0 &&& 0xf) then UciStatusCode.UciStatusUnknownOid
            else UciStatusCode.UciStatusUnknownGid).toU8] ∧
      connWrite
          [(MessageType.Response.toU8 <<< 5) ||| (bytes.headD 0 &&& 0xf),
           bytes.getD 1 0 &&& 0x3f, 0, 1,
           (if knownGid (bytes.headD 0 &&& 0xf) then UciStatusCode.UciStatusUnknownOid
            else UciStatusCode.UciStatusUnknownGid).toU8]
        = some
          [(MessageType.Response.toU8 <<< 5) ||| (bytes.headD 0 &&& 0xf),
           bytes.getD 1 0 &&& 0x3f, 0, 1,
           (if knownGid (bytes.headD 0 &&& 0xf) then UciStatusCode.UciStatusUnknownOid
            else UciStatusCode.UciStatusUnknownGid).toU8]) ∧
    (get_message_type (bytes.headD 0) ≠ MessageType.Command →
     get_message_type (bytes.headD 0) ≠ MessageType.Data → pcOk bytes = false →
      parse_uci_packet pcOk pdOk isCmd knownGid bytes = UciParseResult.Skip) ∧
    (get_message_type (bytes.headD 0) = MessageType.Data → pdOk bytes = false →
      parse_uci_packet pcOk pdOk isCmd knownGid bytes = UciParseResult.Skip) := by
  refine ⟨fun hmt hpc => ⟨?_, ?_⟩, fun hmt hmt2 hpc => ?_, fun hmt hpd => ?_⟩
  · unfold parse_uci_packet
    rw [hmt]
    simp only [hpc, Bool.false_eq_true, if_false]
    cases hk : knownGid (bytes.headD 0 &&& 0xf) <;> simp
  · apply connWrite_five
    · rw [errByte_message_type _ (gid_lt_16 _)]
      intro h
      exact MessageType.noConfusion h
    · exact errByte_and_EF _ (gid_lt_16 _)
  · unfold parse_uci_packet
    cases hmtv : get_message_type (bytes.headD 0) with
    | Data => exact absurd hmtv hmt2
    | Command => exact absurd hmtv hmt
    | Response => simp [hpc]
    | Notification => simp [hpc]
  · unfold parse_uci_packet
    rw [hmt]
    simp [hpd]

/-- Witness for C2: concrete unparseable command packets with unknown and
known group ids, and an unparseable notification and data packet. -/
theorem C2_parse_error_response_witness :
    parse_uci_packet (fun _ => false) (fun _ => false) (fun _ => false)
        (fun g => g == 1) [0x2A, 0xFF, 0, 0] = UciParseResult.Err [74, 63, 0, 1, 7] ∧
    parse_uci_packet (fun _ => false) (fun _ => false) (fun _ => false)
        (fun g => g == 1) [0x21, 0xFF, 0, 0] = UciParseResult.Err [65, 63, 0, 1, 8] ∧
    parse_uci_packet (fun _ => false) (fun _ => false) (fun _ => false)
        (fun g => g == 1) [0x61, 0xFF, 0, 0] = UciParseResult.Skip ∧
    parse_uci_packet (fun _ => false) (fun _ => false) (fun _ => false)
        (fun g => g == 1) [0x01, 0xFF, 0, 0] = UciParseResult.Skip := by
  refine ⟨?_, ?_, ?_, ?_⟩
  · exact ((C2_parse_error_response (fun _ => false) (fun _ => false) (fun _ => false)
      (fun g => g == 1) [0x2A, 0xFF, 0, 0]).1 (by decide) rfl).1
  · exact ((C2_parse_error_response (fun _ => false) (fun _ => false) (fun _ => false)
      (fun g => g == 1) [0x21, 0xFF, 0, 0]).1 (by decide) rfl).1
  · exact (C2_parse_error_response (fun _ => false) (fun _ => false) (fun _ => false)
      (fun g => g == 1) [0x61, 0xFF, 0, 0]).2.1 (by decide) (by decide) rfl
  · exact (C2_parse_error_response (fun _ => false) (fun _ => false) (fun _ => false)
      (fun g => g == 1) [0x01, 0xFF, 0, 0]).2.2 (by decide) rfl

/-! ## Segment-level lemmas for Connection::read -/

/-- A header byte 0 whose 3-bit message type parses and is not `Data`. -/
def isCtrlHeaderByte (b0 : Nat) : Bool :=
  match MessageType.tryFrom ((b0 >>> 5) &&& 0x7) with
  | some MessageType.Data => false
  | some _ => true
  | none => false

/-- The Packet Boundary Flag bit of a header byte 0. -/
def pbfBit (b0 : Nat) : Nat := (b0 >>> 4) &&& 1

lemma connReadAux_data (acc : List Nat) (b0 b1 b2 b3 : Nat) (payload rest : List Nat)
    (hmt : (b0 >>> 5) &&& 0x7 = 0) (hlen : payload.length = b2 + 256 * b3) :
    connReadAux acc (b0 :: b1 :: b2 :: b3 :: (payload ++ rest))
      = some ([b0, b1, b2, b3] ++ (acc ++ payload), rest) := by
  rw [connReadAux.eq_def]
  simp only [List.headD_cons, hmt]
  simp only [MessageType.tryFrom]
  simp [← hlen, List.take_left, List.drop_left]

lemma connReadAux_ctrl_complete (acc : List Nat) (b0 b1 b2 b3 : Nat)
    (payload rest : List Nat)
    (hmt : isCtrlHeaderByte b0 = true) (hlen : b3 = payload.length)
    (hpbf : pbfBit b0 = 0) :
    connReadAux acc (b0 :: b1 :: b2 :: b3 :: (payload ++ rest))
      = some ([b0, b1, b2, b3] ++ (acc ++ payload), rest) := by
  unfold isCtrlHeaderByte at hmt
  unfold pbfBit at hpbf
  rw [connReadAux.eq_def]
  simp only [List.headD_cons]
  cases htf : MessageType.tryFrom ((b0 >>> 5) &&& 0x7) with
  | none => rw [htf] at hmt; exact absurd hmt (by simp)
  | some mt =>
    rw [htf] at hmt
    cases mt with
    | Data => exact absurd hmt (by simp)
    | Command => simp [hlen, hpbf, List.take_left, List.drop_left]
    | Response => simp [hlen, hpbf, List.take_left, List.drop_left]
    | Notification => simp [hlen, hpbf, List.take_left, List.drop_left]

lemma connReadAux_ctrl_notcomplete (acc : List Nat) (b0 b1 b2 b3 : Nat)
    (payload rest : List Nat)
    (hmt : isCtrlHeaderByte b0 = true) (hlen : b3 = payload.length)
    (hpbf : pbfBit b0 = 1) :
    connReadAux acc (b0 :: b1 :: b2 :: b3 :: (payload ++ rest))
      = connReadAux (acc ++ payload) rest := by
  unfold isCtrlHeaderByte at hmt
  unfold pbfBit at hpbf
  conv_lhs => rw [connReadAux.eq_def]
  simp only [List.headD_cons]
  cases htf : MessageType.tryFrom ((b0 >>> 5) &&& 0x7) with
  | none => rw [htf] at hmt; exact absurd hmt (by simp)
  | some mt =>
    rw [htf] at hmt
    cases mt with
    | Data => exact absurd hmt (by simp)
    | Command => simp [hlen, hpbf, List.take_left, List.drop_left]
    | Response => simp [hlen, hpbf, List.take_left, List.drop_left]
    | Notification => simp [hlen, hpbf, List.take_left, List.drop_left]

/-! ## C4: Connection::read reassembly -/

/-- One wire segment: a 4-byte header followed by its payload bytes. -/
structure UciSegment where
  b0 : Nat
  b1 : Nat
  b2 : Nat
  b3 : Nat
  payload : List Nat
deriving DecidableEq, Repr

/-- The bytes of a segment as they appear on the wire. -/
def UciSegment.bytes (s : UciSegment) : List Nat :=
  [s.b0, s.b1, s.b2, s.b3] ++ s.payload

/-- A well-formed control segment: parseable non-data message type and the
header length byte equal to the payload length. -/
def ctrlSegWf (s : UciSegment) : Bool :=
  isCtrlHeaderByte s.b0 && (s.b3 == s.payload.length)

lemma connReadAux_ctrl_segments (pre : List UciSegment) (lastSeg : UciSegment) :
    ∀ (acc rest : List Nat),
    (∀ s ∈ pre, ctrlSegWf s = true ∧ pbfBit s.b0 = 1) →
    ctrlSegWf lastSeg = true → pbfBit lastSeg.b0 = 0 →
    connReadAux acc ((pre ++ [lastSeg]).flatMap UciSegment.bytes ++ rest)
      = some ([lastSeg.b0, lastSeg.b1, lastSeg.b2, lastSeg.b3] ++
          (acc ++ (pre ++ [lastSeg]).flatMap (fun s => s.payload)), rest) := by
  induction pre with
  | nil =>
    intro acc rest _ hlast hpbf
    simp only [List.nil_append, List.flatMap_cons, List.flatMap_nil, List.append_nil,
      UciSegment.bytes, List.cons_append, List.append_assoc]
    have hwf := hlast
    simp only [ctrlSegWf, Bool.and_eq_true, beq_iff_eq] at hwf
    exact connReadAux_ctrl_complete acc _ _ _ _ _ rest hwf.1 hwf.2 hpbf
  | cons s pre ih =>
    intro acc rest hpre hlast hpbf
    have hs := hpre s (List.mem_cons_self s pre)
    have hwf := hs.1
    simp only [ctrlSegWf, Bool.and_eq_true, beq_iff_eq] at hwf
    simp only [List.cons_append, List.flatMap_cons, UciSegment.bytes, List.append_assoc,
      List.cons_append, List.nil_append]
    rw [connReadAux_ctrl_notcomplete acc s.b0 s.b1 s.b2 s.b3 s.payload _ hwf.1 hwf.2 hs.2]
    rw [ih (acc ++ s.payload) rest (fun t ht => hpre t (List.mem_cons_of_mem s ht)) hlast hpbf]
    simp

/-- C4: `Connection::read` returns a data packet immediately after its
4-byte header and payload (one fragment per call); for control packets it
loops over (header, payload) segments until one with PBF `Complete`,
returning the last-read segment header followed by the concatenation of all
segment payloads, the earlier headers having been discarded. -/
theorem C4_read_reassembly :
    (∀ (b0 b1 b2 b3 : Nat) (payload rest : List Nat),
      (b0 >>> 5) &&& 0x7 = 0 → payload.length = b2 + 256 * b3 →
      connRead (b0 :: b1 :: b2 :: b3 :: (payload ++ rest))
        = some ([b0, b1, b2, b3] ++ payload, rest)) ∧
    (∀ (pre : List UciSegment) (lastSeg : UciSegment) (rest : List Nat),
      (∀ s ∈ pre, ctrlSegWf s = true ∧ pbfBit s.b0 = 1) →
      ctrlSegWf lastSeg = true → pbfBit lastSeg.b0 = 0 →
      connRead ((pre ++ [lastSeg]).flatMap UciSegment.bytes ++ rest)
        = some ([lastSeg.b0, lastSeg.b1, lastSeg.b2, lastSeg.b3] ++
            (pre ++ [lastSeg]).flatMap (fun s => s.payload), rest)) := by
  constructor
  · intro b0 b1 b2 b3 payload rest hmt hlen
    unfold connRead
    rw [connReadAux_data [] b0 b1 b2 b3 payload rest hmt hlen]
    simp
  · intro pre lastSeg rest hpre hlast hpbf
    unfold connRead
    rw [connReadAux_ctrl_segments pre lastSeg [] rest hpre hlast hpbf]
    simp

/-- Witness for C4: a concrete one-fragment data packet and a concrete
two-segment control packet. -/
theorem C4_read_reassembly_witness :
    connRead [0x01, 9, 2, 0, 5, 6, 42] = some ([0x01, 9, 2, 0, 5, 6], [42]) ∧
    connRead [0x31, 9, 8, 2, 5, 6, 0x21, 9, 8, 1, 7, 42]
      = some ([0x21, 9, 8, 1, 5, 6, 7], [42]) := by
  constructor
  · have h := C4_read_reassembly.1 0x01 9 2 0 [5, 6] [42] (by decide) (by decide)
    simpa using h
  · have h := C4_read_reassembly.2 [⟨0x31, 9, 8, 2, [5, 6]⟩] ⟨0x21, 9, 8, 1, [7]⟩ [42]
      (by decide) (by decide) (by decide)
    simpa [UciSegment.bytes] using h

lemma connWriteLoop_ctrl_last (h0 h1 h2 : Nat) (payload : List Nat)
    (hmt : get_message_type h0 ≠ MessageType.Data)
    (hlen : payload.length ≤ 255) :
    connWriteLoop h0 h1 h2 payload
      = [h0 &&& 0xEF, h1, h2, payload.length] ++ payload := by
  rw [connWriteLoop.eq_def]
  simp only [hmt, if_false, MAX_CTRL_PACKET_PAYLOAD_SIZE, Nat.min_eq_left hlen,
    lt_irrefl, reduceIte, Nat.zero_shiftLeft, Nat.or_zero, List.take_length,
    List.drop_length, List.isEmpty_nil, if_true]

lemma connWriteLoop_ctrl_step (h0 h1 h2 : Nat) (payload : List Nat)
    (hmt : get_message_type h0 ≠ MessageType.Data)
    (hlen : 255 < payload.length) :
    connWriteLoop h0 h1 h2 payload
      = ([(h0 &&& 0xEF) ||| 0x10, h1, h2, 255] ++ payload.take 255)
        ++ connWriteLoop h0 h1 h2 (payload.drop 255) := by
  conv_lhs => rw [connWriteLoop.eq_def]
  have hmin : min payload.length 255 = 255 := Nat.min_eq_right (by omega)
  simp only [hmt, if_false, MAX_CTRL_PACKET_PAYLOAD_SIZE, hmin, hlen, reduceIte,
    List.isEmpty_iff, List.drop_eq_nil_iff]
  rw [if_neg (by omega)]
  simp [Nat.shiftLeft_eq]

lemma connWriteLoop_data_last (h0 h1 h2 : Nat) (payload : List Nat)
    (hmt : get_message_type h0 = MessageType.Data)
    (hlen : payload.length ≤ 1024) :
    connWriteLoop h0 h1 h2 payload
      = [h0 &&& 0xEF, h1, payload.length % 256, payload.length / 256] ++ payload := by
  rw [connWriteLoop.eq_def]
  simp only [hmt, if_true, MAX_DATA_PACKET_PAYLOAD_SIZE, Nat.min_eq_left hlen,
    lt_irrefl, reduceIte, Nat.zero_shiftLeft, Nat.or_zero, List.take_length,
    List.drop_length, List.isEmpty_nil, if_true]

lemma connWriteLoop_data_step (h0 h1 h2 : Nat) (payload : List Nat)
    (hmt : get_message_type h0 = MessageType.Data)
    (hlen : 1024 < payload.length) :
    connWriteLoop h0 h1 h2 payload
      = ([(h0 &&& 0xEF) ||| 0x10, h1, 0, 4] ++ payload.take 1024)
        ++ connWriteLoop h0 h1 h2 (payload.drop 1024) := by
  conv_lhs => rw [connWriteLoop.eq_def]
  have hmin : min payload.length 1024 = 1024 := Nat.min_eq_right (by omega)
  simp only [hmt, if_true, MAX_DATA_PACKET_PAYLOAD_SIZE, hmin, hlen, reduceIte,
    List.isEmpty_iff, List.drop_eq_nil_iff]
  rw [if_neg (by omega)]
  simp [Nat.shiftLeft_eq]

/-! ## C5: Connection::write segmentation boundaries -/

/-- C5: `Connection::write` chunks control payloads at 255 bytes and data
payloads at 1024 bytes: a 255-byte control payload is one segment with PBF
`Complete`; a 256-byte control payload is two segments of 255 then 1 bytes
with PBF `NotComplete` then `Complete`; analogously for data at 1024; each
segment header carries the chunk length (u8 at byte 3 for control, u16
little-endian at bytes 2..3 for data), the other header fields taken from
the original header. -/
theorem C5_write_boundaries :
    (∀ (h0 h1 h2 h3 : Nat) (payload : List Nat),
      get_message_type h0 ≠ MessageType.Data → payload.length = 255 →
      connWrite ([h0, h1, h2, h3] ++ payload)
        = some ([h0 &&& 0xEF, h1, h2, 255] ++ payload)) ∧
    (∀ (h0 h1 h2 h3 : Nat) (payload : List Nat),
      get_message_type h0 ≠ MessageType.Data → payload.length = 256 →
      connWrite ([h0, h1, h2, h3] ++ payload)
        = some (([(h0 &&& 0xEF) ||| 0x10, h1, h2, 255] ++ payload.take 255)
            ++ ([h0 &&& 0xEF, h1, h2, 1] ++ payload.drop 255))) ∧
    (∀ (h0 h1 h2 h3 : Nat) (payload : List Nat),
      get_message_type h0 = MessageType.Data → payload.length = 1024 →
      connWrite ([h0, h1, h2, h3] ++ payload)
        = some ([h0 &&& 0xEF, h1, 0, 4] ++ payload)) ∧
    (∀ (h0 h1 h2 h3 : Nat) (payload : List Nat),
      get_message_type h0 = MessageType.Data → payload.length = 1025 →
      connWrite ([h0, h1, h2, h3] ++ payload)
        = some (([(h0 &&& 0xEF) ||| 0x10, h1, 0, 4] ++ payload.take 1024)
            ++ ([h0 &&& 0xEF, h1, 1, 0] ++ payload.drop 1024))) := by
  have hdrop : ∀ (h0 h1 h2 h3 : Nat) (payload : List Nat),
      connWrite ([h0, h1, h2, h3] ++ payload) = some (connWriteLoop h0 h1 h2 payload) := by
    intro h0 h1 h2 h3 payload
    unfold connWrite
    rw [if_neg (by simp)]
    simp
  refine ⟨fun h0 h1 h2 h3 payload hmt hlen => ?_,
          fun h0 h1 h2 h3 payload hmt hlen => ?_,
          fun h0 h1 h2 h3 payload hmt hlen => ?_,
          fun h0 h1 h2 h3 payload hmt hlen => ?_⟩
  · rw [hdrop, connWriteLoop_ctrl_last h0 h1 h2 payload hmt (by omega), hlen]
  · rw [hdrop, connWriteLoop_ctrl_step h0 h1 h2 payload hmt (by omega),
      connWriteLoop_ctrl_last h0 h1 h2 (payload.drop 255) hmt (by simp [hlen]),
      List.length_drop, hlen]
  · rw [hdrop, connWriteLoop_data_last h0 h1 h2 payload hmt (by omega), hlen]
  · rw [hdrop, connWriteLoop_data_step h0 h1 h2 payload hmt (by omega),
      connWriteLoop_data_last h0 h1 h2 (payload.drop 1024) hmt (by simp [hlen]),
      List.length_drop, hlen]

/-- Witness for C5: concrete payloads of 255, 256, 1024 and 1025 bytes. -/
theorem C5_write_boundaries_witness :
    connWrite ([0x21, 1, 2, 0] ++ List.replicate 255 7)
      = some ([0x21, 1, 2, 255] ++ List.replicate 255 7) ∧
    connWrite ([0x21, 1, 2, 0] ++ List.replicate 256 7)
      = some (([0x31, 1, 2, 255] ++ List.replicate 255 7)
          ++ ([0x21, 1, 2, 1] ++ List.replicate 1 7)) ∧
    connWrite ([0x01, 1, 2, 0] ++ List.replicate 1024 7)
      = some ([0x01, 1, 0, 4] ++ List.replicate 1024 7) ∧
    connWrite ([0x01, 1, 2, 0] ++ List.replicate 1025 7)
      = some (([0x11, 1, 0, 4] ++ List.replicate 1024 7)
          ++ ([0x01, 1, 1, 0] ++ List.replicate 1 7)) := by
  refine ⟨?_, ?_, ?_, ?_⟩
  · have h := C5_write_boundaries.1 0x21 1 2 0 (List.replicate 255 7)
      (by decide) (by simp)
    simpa using h
  · have h := C5_write_boundaries.2.1 0x21 1 2 0 (List.replicate 256 7)
      (by decide) (by simp)
    simpa [List.take_replicate, List.drop_replicate] using h
  · have h := C5_write_boundaries.2.2.1 0x01 1 2 0 (List.replicate 1024 7)
      (by decide) (by simp)
    simpa using h
  · have h := C5_write_boundaries.2.2.2 0x01 1 2 0 (List.replicate 1025 7)
      (by decide) (by simp)
    simpa [List.take_replicate, List.drop_replicate] using h

/-! ## C6: write/read roundtrip for control packets -/

lemma and_EF_ctrl : ∀ b < 256, isCtrlHeaderByte (b &&& 0xEF) = isCtrlHeaderByte b := by
  decide

lemma and_EF_or16_ctrl :
    ∀ b < 256, isCtrlHeaderByte ((b &&& 0xEF) ||| 0x10) = isCtrlHeaderByte b := by
  decide

lemma pbf_and_EF : ∀ b < 256, pbfBit (b &&& 0xEF) = 0 := by decide

lemma pbf_and_EF_or16 : ∀ b < 256, pbfBit ((b &&& 0xEF) ||| 0x10) = 1 := by decide

lemma mt_and_EF : ∀ b < 256, get_message_type (b &&& 0xEF) = get_message_type b := by
  decide

lemma gid_and_EF : ∀ b < 256, (b &&& 0xEF) &&& 0xf = b &&& 0xf := by decide

lemma isCtrl_not_data (b0 : Nat) (h : isCtrlHeaderByte b0 = true) :
    get_message_type b0 ≠ MessageType.Data := by
  unfold isCtrlHeaderByte at h
  unfold get_message_type
  cases htf : MessageType.tryFrom ((b0 >>> 5) &&& 0x7) with
  | none => rw [htf] at h; exact absurd h (by simp)
  | some mt =>
    rw [htf] at h
    cases mt <;> simp_all

/-- Length of the final chunk when a control payload of length `n` is
segmented at 255 bytes. -/
def lastChunkLengthCtrl (n : Nat) : Nat :=
  if n ≤ 255 then n else lastChunkLengthCtrl (n - 255)
termination_by n
decreasing_by omega

lemma writeLoop_roundtrip (b0 b1 b2 : Nat) (hb : b0 < 256)
    (hmt : isCtrlHeaderByte b0 = true) :
    ∀ (n : Nat) (payload acc rest : List Nat), payload.length = n →
      connReadAux acc (connWriteLoop b0 b1 b2 payload ++ rest)
        = some ([b0 &&& 0xEF, b1, b2, lastChunkLengthCtrl payload.length]
            ++ (acc ++ payload), rest) := by
  intro n
  induction n using Nat.strong_induction_on with
  | _ n ih =>
    intro payload acc rest hlen
    by_cases hle : payload.length ≤ 255
    · rw [connWriteLoop_ctrl_last b0 b1 b2 payload (isCtrl_not_data b0 hmt) hle]
      rw [lastChunkLengthCtrl.eq_def, if_pos hle]
      simp only [List.cons_append, List.nil_append, List.append_assoc]
      exact connReadAux_ctrl_complete acc _ b1 b2 _ payload rest
        ((and_EF_ctrl b0 hb).trans hmt) rfl (pbf_and_EF b0 hb)
    · have hgt : 255 < payload.length := by omega
      rw [connWriteLoop_ctrl_step b0 b1 b2 payload (isCtrl_not_data b0 hmt) hgt]
      simp only [List.cons_append, List.nil_append, List.append_assoc]
      rw [connReadAux_ctrl_notcomplete acc _ b1 b2 _ (payload.take 255) _
        ((and_EF_or16_ctrl b0 hb).trans hmt)
        (by simp [List.length_take]; omega) (pbf_and_EF_or16 b0 hb)]
      rw [ih (n - 255) (by omega) (payload.drop 255) (acc ++ payload.take 255) rest
        (by simp [List.length_drop]; omega)]
      rw [lastChunkLengthCtrl.eq_def (payload.length)]
      rw [if_neg (by omega)]
      simp only [List.length_drop, hlen, List.append_assoc, List.take_append_drop]
      rfl

/-- C6: writing a logical control packet (4-byte header, arbitrary payload)
with `Connection::write` and reading the produced byte stream back with
`Connection::read` yields a packet with the same message type, group id and
opcode id (byte 1 is preserved verbatim), the PBF reset to `Complete`, and
the original payload. -/
theorem C6_write_read_roundtrip (b0 b1 b2 b3 : Nat) (payload rest : List Nat)
    (hb : b0 < 256) (hmt : isCtrlHeaderByte b0 = true) :
    ∃ (out : List Nat) (h0s lenLast : Nat),
      connWrite ([b0, b1, b2, b3] ++ payload) = some out ∧
      connRead (out ++ rest) = some ([h0s, b1, b2, lenLast] ++ payload, rest) ∧
      get_message_type h0s = get_message_type b0 ∧
      h0s &&& 0xf = b0 &&& 0xf ∧
      get_pbf h0s = PacketBoundaryFlag.Complete := by
  refine ⟨connWriteLoop b0 b1 b2 payload, b0 &&& 0xEF,
    lastChunkLengthCtrl payload.length, ?_, ?_, mt_and_EF b0 hb, gid_and_EF b0 hb, ?_⟩
  · unfold connWrite
    rw [if_neg (by simp)]
    simp
  · unfold connRead
    rw [writeLoop_roundtrip b0 b1 b2 hb hmt payload.length payload [] rest rfl]
    simp
  · unfold get_pbf
    rw [if_pos (show ((b0 &&& 0xEF) >>> 4) &&& 1 = 0 from pbf_and_EF b0 hb)]

/-- Witness for C6: a concrete control packet with a 300-byte payload
(two segments on the wire). -/
theorem C6_write_read_roundtrip_witness :
    ∃ (out : List Nat) (h0s lenLast : Nat),
      connWrite ([0x21, 9, 2, 0] ++ List.replicate 300 5) = some out ∧
      connRead (out ++ [42]) = some ([h0s, 9, 2, lenLast] ++ List.replicate 300 5, [42]) ∧
      get_message_type h0s = get_message_type 0x21 ∧
      h0s &&& 0xf = 0x21 &&& 0xf ∧
      get_pbf h0s = PacketBoundaryFlag.Complete :=
  C6_write_read_roundtrip 0x21 9 2 0 (List.replicate 300 5) [42] (by decide) (by decide)

/-! ## Device, session and registry model

`device.rs`, `session.rs`, `mac_address.rs` and `position.rs` are not part
of `src/`; the data carried by `Device` and `Session` and their accessors
are modelled from the spec (§3), keeping the source's field and method
names.  The geometric routine `Position::compute_range_azimuth_elevation`
and the app-config compatibility check `can_start_ranging_with_peer` are
collaborator functions and are taken as parameters (`geo`, `canStart`)
of the operations that call them. -/

/-- Modelled from the spec: `MacAddress` (mac_address.rs): a 2-byte short
or an 8-byte extended address, equal iff tag and bytes are equal. -/
inductive MacAddress
  | Short (b0 b1 : Nat)
  | Extended (bytes : List Nat)
deriving DecidableEq, Repr

/-- Modelled from the spec: `Position` (position.rs): coordinates plus
orientation.  The geometry routine on positions is out of scope and passed
as the parameter `geo` where needed. -/
structure Position where
  x : Int
  y : Int
  z : Int
  azimuth : Int
  elevation : Int
deriving DecidableEq, Repr

/-- `Category` (src/lib.rs). -/
inductive Category
  | Uci
  | Anchor
deriving DecidableEq, Repr

/-- `Anchor` (src/lib.rs). -/
structure Anchor where
  mac_address : MacAddress
  position : Position
deriving DecidableEq, Repr

/-- Modelled from the spec: the codec's `SessionState` enum. -/
inductive SessionState
  | SessionStateInit
  | SessionStateDeinit
  | SessionStateIdle
  | SessionStateActive
deriving DecidableEq, Repr

/-- Modelled from the spec: the codec's `DeviceState` enum. -/
inductive DeviceState
  | DeviceStateReady
  | DeviceStateActive
deriving DecidableEq, Repr

/-- Modelled from the spec: the codec's `ReasonCode` enum (the two values
relevant to the modelled transitions). -/
inductive ReasonCode
  | StateChangeWithSessionManagementCommands
  | SessionStoppedDueToInbandSignal
deriving DecidableEq, Repr

/-- Modelled from the spec: `RangeDataNtfConfig` (session.rs): the ranging
data notification policy; the claims only distinguish `Disable` from the
enabled configurations. -/
inductive RangeDataNtfConfig
  | Disable
  | Enable
  | EnableProximityLevelTrig
deriving DecidableEq, Repr

/-- Modelled from the spec: `AppConfig` (session.rs): the configuration bag
with at minimum the session's own mac in its role (`device_mac_address`),
the destination mac list, the ranging notification policy, and fields read
only by the collaborator predicate `can_start_ranging_with_peer` (role,
channel, ranging method). -/
structure AppConfig where
  device_mac_address : MacAddress
  dst_mac_addresses : List MacAddress
  range_data_ntf_config : RangeDataNtfConfig
  device_role : Nat
  channel_number : Nat
  ranging_round_usage : Nat
deriving DecidableEq, Repr

/-- Modelled from the spec: `Session` (session.rs): state machine per
`(device, session_id)` with `app_config`, a `sequence_number` counter, a
cancellable ranging tick (`ranging_task`: whether the timer exists), and
the reason code accompanying the last state transition. -/
structure Session where
  state : SessionState
  app_config : AppConfig
  sequence_number : Nat
  ranging_task : Bool
  reason_code : ReasonCode
deriving DecidableEq, Repr

/-- Modelled from the spec: `Session::session_state` (session.rs). -/
def Session.session_state (s : Session) : SessionState := s.state

/-- Modelled from the spec: `Session::get_dst_mac_addresses` (session.rs)
returns the destination mac list of the session's app config. -/
def Session.get_dst_mac_addresses (s : Session) : List MacAddress :=
  s.app_config.dst_mac_addresses

/-- Modelled from the spec: `Session::is_ranging_data_ntf_enabled`
(session.rs) returns the session's ranging-data notification config. -/
def Session.is_ranging_data_ntf_enabled (s : Session) : RangeDataNtfConfig :=
  s.app_config.range_data_ntf_config

/-- Modelled from the spec: `Session::stop_ranging_task` (session.rs)
cancels the periodic ranging tick. -/
def Session.stop_ranging_task (s : Session) : Session :=
  { s with ranging_task := false }

/-- Modelled from the spec: `Session::set_state` (session.rs) updates the
session state; the reason code accompanies the transition. -/
def Session.set_state (s : Session) (st : SessionState) (r : ReasonCode) : Session :=
  { s with state := st, reason_code := r }

/-- Modelled from the spec: `Device` (device.rs): handle, mac, position,
device state, session table, and the count of `Active` sessions. -/
structure Device where
  handle : Nat
  mac_address : MacAddress
  position : Position
  state : DeviceState
  sessions : List (Nat × Session)
  n_active_sessions : Nat
deriving DecidableEq, Repr

/-- Association-list lookup standing in for `HashMap::get`. -/
def alookup {κ α : Type} [DecidableEq κ] (k : κ) : List (κ × α) → Option α
  | [] => none
  | (k', v) :: rest => if k' = k then some v else alookup k rest

/-- Association-list pointwise update standing in for mutation through
`HashMap::get_mut`: updates the (first) entry with the given key. -/
def aupdate {κ α : Type} [DecidableEq κ] (k : κ) (f : α → α) :
    List (κ × α) → List (κ × α)
  | [] => []
  | (k', v) :: rest =>
    if k' = k then (k', f v) :: rest else (k', v) :: aupdate k f rest

/-- Update of the first list element satisfying a predicate, standing in
for mutation through `values_mut().find(..)`. -/
def updFirst {α : Type} (pred : α → Bool) (f : α → α) : List α → List α
  | [] => []
  | x :: xs => if pred x then f x :: xs else x :: updFirst pred f xs

/-- Modelled from the spec: `Device::get_session` (device.rs). -/
def Device.get_session (d : Device) (session_id : Nat) : Option Session :=
  alookup session_id d.sessions

/-- Modelled from the spec: `Device::set_state` (device.rs). -/
def Device.set_state (d : Device) (st : DeviceState) : Device :=
  { d with state := st }

/-- The registry owned by the Control Core (`Pica`, src/lib.rs); the
channels and the pcapng directory carry no registry state and are omitted. -/
structure Pica where
  devices : List (Nat × Device)
  anchors : List (MacAddress × Anchor)
  counter : Nat
deriving DecidableEq, Repr

/-- `PicaCommandError` (src/lib.rs). -/
inductive PicaCommandError
  | DeviceAlreadyExists (mac : MacAddress)
  | DeviceNotFound (mac : MacAddress)
deriving DecidableEq, Repr

/-- `PicaCommandStatus` (src/lib.rs): `Result<(), PicaCommandError>`. -/
inductive PicaCommandStatus
  | ok
  | err (e : PicaCommandError)
deriving DecidableEq, Repr

/-- `PicaEvent` (src/lib.rs). -/
inductive PicaEvent
  | DeviceAdded (category : Category) (mac_address : MacAddress) (position : Position)
  | DeviceRemoved (category : Category) (mac_address : MacAddress)
  | DeviceUpdated (category : Category) (mac_address : MacAddress) (position : Position)
  | NeighborUpdated (source_category : Category) (source_mac_address : MacAddress)
      (destination_category : Category) (destination_mac_address : MacAddress)
      (distance : Nat) (azimuth : Int) (elevation : Int)
deriving DecidableEq, Repr

/-! ## Measurement synthesis and the Ranging command -/

/-- `ShortAddressTwoWayRangingMeasurement` (packets codec; fields as
populated by `make_measurement` in src/lib.rs). -/
structure ShortAddressTwoWayRangingMeasurement where
  mac_address : Nat
  status : UciStatusCode
  nlos : Nat
  distance : Nat
  aoa_azimuth : Nat
  aoa_azimuth_fom : Nat
  aoa_elevation : Nat
  aoa_elevation_fom : Nat
  aoa_destination_azimuth : Nat
  aoa_destination_azimuth_fom : Nat
  aoa_destination_elevation : Nat
  aoa_destination_elevation_fom : Nat
  slot_index : Nat
  rssi : Nat
deriving DecidableEq, Repr

/-- Two's-complement reinterpretation of a signed value as a `u16`
(`as u16` in Rust, after sign extension). -/
def toU16 (i : Int) : Nat := (i % 65536).toNat

/-- `make_measurement` (src/lib.rs): builds a short-address measurement;
`none` models the `panic!` on an extended address. -/
def make_measurement (mac_address : MacAddress)
    (lcl rmt : Nat × Int × Int) : Option ShortAddressTwoWayRangingMeasurement :=
  match mac_address with
  | .Short a0 a1 =>
    some
      { mac_address := a0 + 256 * a1
        status := .UciStatusOk
        nlos := 0
        distance := lcl.1
        aoa_azimuth := toU16 lcl.2.1
        aoa_azimuth_fom := 100
        aoa_elevation := toU16 lcl.2.2
        aoa_elevation_fom := 100
        aoa_destination_azimuth := toU16 rmt.2.1
        aoa_destination_azimuth_fom := 100
        aoa_destination_elevation := toU16 rmt.2.2
        aoa_destination_elevation_fom := 100
        slot_index := 0
        rssi := 255 }
  | .Extended _ => none

/-- `ShortMacTwoWaySessionInfoNtf` (packets codec; fields as populated by
the builder in `Pica::ranging`). -/
structure ShortMacTwoWaySessionInfoNtf where
  sequence_number : Nat
  session_token : Nat
  rcr_indicator : Nat
  current_ranging_interval : Nat
  two_way_ranging_measurements : List ShortAddressTwoWayRangingMeasurement
deriving DecidableEq, Repr

/-- The type of the collaborator routine
`Position::compute_range_azimuth_elevation`:
`(distance : u16, azimuth : i16, elevation : i8)`. -/
abbrev GeoFn := Position → Position → Nat × Int × Int

/-- The type of the collaborator predicate
`AppConfig::can_start_ranging_with_peer` (session.rs). -/
abbrev CanStartFn := AppConfig → AppConfig → Bool

/-- `Pica::get_device_by_mac` (src/lib.rs): find a device owning a session
with the given id whose `app_config.device_mac_address` is the given mac,
whose config is compatible with the local one, and which is `Active`. -/
def Pica.get_device_by_mac (canStart : CanStartFn) (p : Pica)
    (mac_address : MacAddress) (local_app_config : AppConfig)
    (session_id : Nat) : Option Device :=
  (p.devices.map (fun kv => kv.2)).find? (fun device =>
    match device.get_session session_id with
    | some session =>
      session.app_config.device_mac_address == mac_address
        && canStart local_app_config session.app_config
        && session.session_state == SessionState.SessionStateActive
    | none => false)

/-- The first `if let` of the per-destination-mac loop body in
`Pica::ranging` (src/lib.rs): the anchor check; `none` models the
`assert!` failure and the extended-address `panic!`. -/
def anchorCheck (geo : GeoFn) (p : Pica) (device : Device)
    (mac_address : MacAddress) :
    Option (List ShortAddressTwoWayRangingMeasurement) :=
  match alookup mac_address p.anchors with
  | some anchor =>
    let lcl := geo device.position anchor.position
    let rmt := geo anchor.position device.position
    if lcl.1 = rmt.1 then (make_measurement mac_address lcl rmt).map (fun m => [m])
    else none
  | none => some []

/-- The second `if let` of the loop body: the peer-device check. -/
def peerCheck (geo : GeoFn) (canStart : CanStartFn) (p : Pica)
    (device : Device) (session : Session) (session_id : Nat)
    (mac_address : MacAddress) :
    Option (List ShortAddressTwoWayRangingMeasurement) :=
  match p.get_device_by_mac canStart mac_address session.app_config session_id with
  | some peer_device =>
    let lcl := geo device.position peer_device.position
    let rmt := geo peer_device.position device.position
    if lcl.1 = rmt.1 then (make_measurement mac_address lcl rmt).map (fun m => [m])
    else none
  | none => some []

/-- The whole per-destination-mac loop body of `Pica::ranging`: the anchor
check and the peer-device check are sequenced, both may contribute. -/
def measureOne (geo : GeoFn) (canStart : CanStartFn) (p : Pica)
    (device : Device) (session : Session) (session_id : Nat)
    (mac_address : MacAddress) :
    Option (List ShortAddressTwoWayRangingMeasurement) :=
  match anchorCheck geo p device mac_address with
  | none => none
  | some anchorPart =>
    match peerCheck geo canStart p device session session_id mac_address with
    | none => none
    | some peerPart => some (anchorPart ++ peerPart)

/-- The `for_each` over `session.get_dst_mac_addresses()` in
`Pica::ranging` (src/lib.rs), collecting into `measurements`. -/
def collectMeasurements (geo : GeoFn) (canStart : CanStartFn) (p : Pica)
    (device : Device) (session : Session) (session_id : Nat) :
    List MacAddress → Option (List ShortAddressTwoWayRangingMeasurement)
  | [] => some []
  | mac :: rest =>
    match measureOne geo canStart p device session session_id mac with
    | none => none
    | some ms =>
      match collectMeasurements geo canStart p device session session_id rest with
      | none => none
      | some tail => some (ms ++ tail)

/-- `Pica::ranging` (src/lib.rs).  Returns the updated registry and the
notification enqueued on the device's outbound queue (if any); `none`
models a panic: the `.unwrap()` on a missing device or session, a failed
`assert!`, or an extended destination address. -/
def Pica.ranging (geo : GeoFn) (canStart : CanStartFn) (p : Pica)
    (device_handle session_id : Nat) :
    Option (Pica × Option ShortMacTwoWaySessionInfoNtf) :=
  match alookup device_handle p.devices with
  | none => none
  | some device =>
  match alookup session_id device.sessions with
  | none => none
  | some session =>
  match collectMeasurements geo canStart p device session session_id
      session.get_dst_mac_addresses with
  | none => none
  | some measurements =>
  if session.is_ranging_data_ntf_enabled ≠ RangeDataNtfConfig.Disable then
    let ntf : ShortMacTwoWaySessionInfoNtf :=
      { sequence_number := session.sequence_number
        session_token := session_id
        rcr_indicator := 0
        current_ranging_interval := 0
        two_way_ranging_measurements := measurements }
    some
      ({ p with
          devices := aupdate device_handle (fun d =>
            { d with sessions := aupdate session_id (fun s =>
                { s with sequence_number := s.sequence_number + 1 }) d.sessions })
            p.devices },
       some ntf)
  else
    some (p, none)

/-- Iterated ranging rounds for a fixed `(device_handle, session_id)`,
collecting the emitted notifications in order. -/
def rangingRounds (geo : GeoFn) (canStart : CanStartFn)
    (device_handle session_id : Nat) :
    Nat → Pica → Option (Pica × List ShortMacTwoWaySessionInfoNtf)
  | 0, p => some (p, [])
  | n + 1, p =>
    match p.ranging geo canStart device_handle session_id with
    | none => none
    | some (p1, onf) =>
      match rangingRounds geo canStart device_handle session_id n p1 with
      | none => none
      | some (p2, ntfs) => some (p2, onf.toList ++ ntfs)

/-! ## StopRanging, CreateAnchor, InitUciDevice -/

/-- The closure of `Pica::get_device_mut_by_mac_and_session_id`
(src/lib.rs): the device owns a session with the given id whose
`app_config.device_mac_address` is the given mac and which is `Active`. -/
def stopRangingMatch (mac_address : MacAddress) (session_id : Nat)
    (device : Device) : Bool :=
  match device.get_session session_id with
  | some session =>
    session.app_config.device_mac_address == mac_address
      && session.session_state == SessionState.SessionStateActive
  | none => false

/-- The mutation applied to the found device by
`Pica::stop_controlee_ranging` (src/lib.rs): stop the ranging task,
transition the session to `Idle` with reason
`SessionStoppedDueToInbandSignal`, decrement `n_active_sessions`, and set
the device `Ready` when the count reaches 0. -/
def stopDevice (d : Device) (session_id : Nat) : Device :=
  let d1 : Device :=
    { d with
        sessions := aupdate session_id (fun s =>
          (s.stop_ranging_task).set_state SessionState.SessionStateIdle
            ReasonCode.SessionStoppedDueToInbandSignal) d.sessions
        n_active_sessions := d.n_active_sessions - 1 }
  if d1.n_active_sessions = 0 then d1.set_state DeviceState.DeviceStateReady else d1

/-- `Pica::stop_controlee_ranging` (src/lib.rs): handle the in-band
StopRanging command; no state change when no device matches. -/
def Pica.stop_controlee_ranging (p : Pica) (mac_address : MacAddress)
    (session_id : Nat) : Pica :=
  { p with
      devices := updFirst (fun kv => stopRangingMatch mac_address session_id kv.2)
        (fun kv => (kv.1, stopDevice kv.2 session_id)) p.devices }

/-- `Pica::get_category` (src/lib.rs). -/
def Pica.get_category (p : Pica) (mac_address : MacAddress) : Option Category :=
  if (alookup mac_address p.anchors).isSome then some Category.Anchor
  else if p.devices.any (fun kv => kv.2.mac_address == mac_address) then
    some Category.Uci
  else none

/-- `Pica::create_anchor` (src/lib.rs): returns the new registry, the
emitted events, and the status sent on the oneshot reply channel. -/
def Pica.create_anchor (p : Pica) (mac_address : MacAddress)
    (position : Position) : Pica × List PicaEvent × PicaCommandStatus :=
  if (p.get_category mac_address).isSome then
    (p, [], .err (.DeviceAlreadyExists mac_address))
  else
    ({ p with anchors := (mac_address, ⟨mac_address, position⟩) :: p.anchors },
     [PicaEvent.DeviceAdded Category.Anchor mac_address position], .ok)

/-- `Pica::init_uci_device` (src/lib.rs): `get_device_mut_by_mac` finds the
first device whose current `mac_address` equals the argument, then sets its
mac and position; `DeviceNotFound` otherwise. -/
def Pica.init_uci_device (p : Pica) (mac_address : MacAddress)
    (position : Position) : Pica × PicaCommandStatus :=
  match (p.devices.map (fun kv => kv.2)).find?
      (fun d => d.mac_address == mac_address) with
  | some _ =>
    ({ p with
        devices := updFirst (fun kv => kv.2.mac_address == mac_address)
          (fun kv =>
            (kv.1, { kv.2 with mac_address := mac_address, position := position }))
          p.devices },
     .ok)
  | none => (p, .err (.DeviceNotFound mac_address))

/-! ## Association-list lemmas -/

lemma alookup_aupdate_self {κ α : Type} [DecidableEq κ] (k : κ) (f : α → α)
    (l : List (κ × α)) : alookup k (aupdate k f l) = (alookup k l).map f := by
  induction l with
  | nil => rfl
  | cons x xs ih =>
    obtain ⟨k', v⟩ := x
    by_cases h : k' = k <;> simp [alookup, aupdate, h, ih]

lemma updFirst_of_none {α : Type} (pred : α → Bool) (f : α → α) :
    ∀ l : List α, (∀ x ∈ l, pred x = false) → updFirst pred f l = l := by
  intro l
  induction l with
  | nil => intro _; rfl
  | cons x xs ih =>
    intro h
    unfold updFirst
    rw [h x (List.mem_cons_self x xs)]
    simp only [Bool.false_eq_true, if_false]
    rw [ih (fun y hy => h y (List.mem_cons_of_mem x hy))]

lemma updFirst_found {α : Type} (pred : α → Bool) (f : α → α) :
    ∀ (pre : List α) (x : α) (post : List α),
      (∀ y ∈ pre, pred y = false) → pred x = true →
      updFirst pred f (pre ++ x :: post) = pre ++ f x :: post := by
  intro pre
  induction pre with
  | nil =>
    intro x post _ hx
    simp [updFirst, hx]
  | cons y ys ih =>
    intro x post hpre hx
    simp only [List.cons_append, updFirst]
    rw [hpre y (List.mem_cons_self y ys)]
    simp only [Bool.false_eq_true, if_false, List.append_eq]
    rw [ih x post (fun z hz => hpre z (List.mem_cons_of_mem y hz)) hx]

lemma find?_append_cons {α : Type} (pred : α → Bool) :
    ∀ (pre : List α) (x : α) (post : List α),
      (∀ y ∈ pre, pred y = false) → pred x = true →
      (pre ++ x :: post).find? pred = some x := by
  intro pre
  induction pre with
  | nil => intro x post _ hx; simp [List.find?_cons, hx]
  | cons y ys ih =>
    intro x post hpre hx
    simp only [List.cons_append, List.find?_cons]
    rw [hpre y (List.mem_cons_self y ys)]
    exact ih x post (fun z hz => hpre z (List.mem_cons_of_mem y hz)) hx

/-! ## Concrete fixtures for evaluations -/

/-- A concrete instantiation of the geometry collaborator: constant
measurement triple (distance symmetric, as the spec requires of the real
routine). -/
def geoZero : GeoFn := fun _ _ => (0, 0, 0)

/-- A concrete instantiation of `can_start_ranging_with_peer`: same channel
and ranging method, complementary roles. -/
def canStartChk : CanStartFn := fun a b =>
  a.channel_number == b.channel_number
    && a.ranging_round_usage == b.ranging_round_usage
    && a.device_role != b.device_role

def fxPos : Position := { x := 0, y := 0, z := 0, azimuth := 0, elevation := 0 }

def fxCfgA : AppConfig :=
  { device_mac_address := .Short 9 0
    dst_mac_addresses := [.Short 5 0]
    range_data_ntf_config := .Enable
    device_role := 0
    channel_number := 9
    ranging_round_usage := 2 }

def fxSessA : Session :=
  { state := .SessionStateActive, app_config := fxCfgA, sequence_number := 0,
    ranging_task := true,
    reason_code := .StateChangeWithSessionManagementCommands }

def fxCfgB : AppConfig :=
  { device_mac_address := .Short 5 0
    dst_mac_addresses := [.Short 9 0]
    range_data_ntf_config := .Enable
    device_role := 1
    channel_number := 9
    ranging_round_usage := 2 }

def fxSessB : Session :=
  { state := .SessionStateActive, app_config := fxCfgB, sequence_number := 4,
    ranging_task := true,
    reason_code := .StateChangeWithSessionManagementCommands }

def fxDevA : Device :=
  { handle := 0, mac_address := .Short 9 0, position := fxPos,
    state := .DeviceStateActive, sessions := [(7, fxSessA)],
    n_active_sessions := 1 }

def fxDevB : Device :=
  { handle := 1, mac_address := .Short 77 0, position := fxPos,
    state := .DeviceStateActive, sessions := [(7, fxSessB)],
    n_active_sessions := 1 }

/-- A registry in which the destination mac `Short 5 0` of device 0's
session 7 is simultaneously an anchor's mac and the session mac of device
1's `Active`, compatible session 7. -/
def fxPica : Pica :=
  { devices := [(0, fxDevA), (1, fxDevB)]
    anchors := [(.Short 5 0, ⟨.Short 5 0, fxPos⟩)]
    counter := 2 }

/-! ## C1: Ranging with a missing device or session -/

/-- C1 (refuting evaluation): processing `Ranging(device_handle,
session_id)` when the devices table has no such handle, or the device has
no such session, is not a no-op: `Pica::ranging` calls `.unwrap()` on the
missing lookup and panics the core (modelled as `none`), instead of
skipping as the spec requires. -/
theorem C1_ranging_missing_panics :
    Pica.ranging geoZero canStartChk
        { devices := [], anchors := [], counter := 0 } 0 1 = none ∧
    Pica.ranging geoZero canStartChk
        { devices := [(0, fxDevA)], anchors := [], counter := 1 } 0 99 = none :=
  ⟨rfl, rfl⟩

/-! ## C3: per-destination-mac measurement contributions -/

/-- The measurement contributed for a destination mac by the anchor check
of `Pica::ranging`: present exactly when an anchor with that mac exists
(and the address is short). -/
def anchorContribution (geo : GeoFn) (p : Pica) (device : Device)
    (mac : MacAddress) : List ShortAddressTwoWayRangingMeasurement :=
  match alookup mac p.anchors with
  | some anchor =>
    (make_measurement mac (geo device.position anchor.position)
      (geo anchor.position device.position)).toList
  | none => []

/-- The measurement contributed for a destination mac by the peer-device
check of `Pica::ranging`: present exactly when `get_device_by_mac` finds a
matching peer (and the address is short). -/
def peerContribution (geo : GeoFn) (canStart : CanStartFn) (p : Pica)
    (device : Device) (session : Session) (session_id : Nat)
    (mac : MacAddress) : List ShortAddressTwoWayRangingMeasurement :=
  match p.get_device_by_mac canStart mac session.app_config session_id with
  | some peer_device =>
    (make_measurement mac (geo device.position peer_device.position)
      (geo peer_device.position device.position)).toList
  | none => []

/-- C3 (refuting evaluation): in `fxPica`, the single destination mac
`Short 5 0` of device 0's session 7 is simultaneously an anchor mac and
the session mac of a compatible `Active` peer session, and the ranging
round appends BOTH measurements — two entries with mac_address 5 from a
one-element destination list — contradicting the claim that a destination
mac never contributes both an anchor and a peer-device measurement. -/
theorem C3_both_anchor_and_peer_measured :
    (Pica.ranging geoZero canStartChk fxPica 0 7).map
        (fun r => r.2.map (fun ntf =>
          ntf.two_way_ranging_measurements.map (fun m => m.mac_address)))
      = some (some [5, 5]) := rfl

lemma anchorCheck_eq (geo : GeoFn) (p : Pica) (device : Device)
    (mac : MacAddress) (part : List ShortAddressTwoWayRangingMeasurement)
    (h : anchorCheck geo p device mac = some part) :
    part = anchorContribution geo p device mac := by
  unfold anchorCheck at h
  unfold anchorContribution
  cases ha : alookup mac p.anchors with
  | none =>
    rw [ha] at h
    simp only [Option.some_inj] at h
    simp [← h]
  | some anchor =>
    rw [ha] at h
    dsimp only at h
    by_cases hd : (geo device.position anchor.position).1
        = (geo anchor.position device.position).1
    · rw [if_pos hd] at h
      cases hm : make_measurement mac (geo device.position anchor.position)
          (geo anchor.position device.position) with
      | none => rw [hm] at h; simp at h
      | some m =>
        rw [hm] at h
        simp at h
        simp [hm, ← h]
    · rw [if_neg hd] at h
      simp at h

lemma peerCheck_eq (geo : GeoFn) (canStart : CanStartFn) (p : Pica)
    (device : Device) (session : Session) (session_id : Nat)
    (mac : MacAddress) (part : List ShortAddressTwoWayRangingMeasurement)
    (h : peerCheck geo canStart p device session session_id mac = some part) :
    part = peerContribution geo canStart p device session session_id mac := by
  unfold peerCheck at h
  unfold peerContribution
  cases hp : p.get_device_by_mac canStart mac session.app_config session_id with
  | none =>
    rw [hp] at h
    simp only [Option.some_inj] at h
    simp [← h]
  | some peer_device =>
    rw [hp] at h
    dsimp only at h
    by_cases hd : (geo device.position peer_device.position).1
        = (geo peer_device.position device.position).1
    · rw [if_pos hd] at h
      cases hm : make_measurement mac (geo device.position peer_device.position)
          (geo peer_device.position device.position) with
      | none => rw [hm] at h; simp at h
      | some m =>
        rw [hm] at h
        simp at h
        simp [hm, ← h]
    · rw [if_neg hd] at h
      simp at h

lemma measureOne_eq (geo : GeoFn) (canStart : CanStartFn) (p : Pica)
    (device : Device) (session : Session) (session_id : Nat)
    (mac : MacAddress) (part : List ShortAddressTwoWayRangingMeasurement)
    (h : measureOne geo canStart p device session session_id mac = some part) :
    part = anchorContribution geo p device mac
      ++ peerContribution geo canStart p device session session_id mac := by
  unfold measureOne at h
  cases hac : anchorCheck geo p device mac with
  | none => rw [hac] at h; simp at h
  | some aPart =>
    rw [hac] at h
    cases hpc : peerCheck geo canStart p device session session_id mac with
    | none => rw [hpc] at h; simp at h
    | some pPart =>
      rw [hpc] at h
      simp only [Option.some_inj] at h
      rw [← h, anchorCheck_eq geo p device mac aPart hac,
        peerCheck_eq geo canStart p device session session_id mac pPart hpc]

lemma collectMeasurements_flatMap (geo : GeoFn) (canStart : CanStartFn)
    (p : Pica) (device : Device) (session : Session) (session_id : Nat) :
    ∀ (macs : List MacAddress) (ms : List ShortAddressTwoWayRangingMeasurement),
      collectMeasurements geo canStart p device session session_id macs = some ms →
      ms = macs.flatMap (fun mac =>
        anchorContribution geo p device mac
          ++ peerContribution geo canStart p device session session_id mac) := by
  intro macs
  induction macs with
  | nil =>
    intro ms h
    unfold collectMeasurements at h
    simp only [Option.some_inj] at h
    simp [← h]
  | cons mac rest ih =>
    intro ms h
    unfold collectMeasurements at h
    cases hmo : measureOne geo canStart p device session session_id mac with
    | none => rw [hmo] at h; simp at h
    | some part =>
      rw [hmo] at h
      cases hcr : collectMeasurements geo canStart p device session session_id rest with
      | none => rw [hcr] at h; simp at h
      | some tail =>
        rw [hcr] at h
        simp only [Option.some_inj] at h
        rw [← h, List.flatMap_cons,
          measureOne_eq geo canStart p device session session_id mac part hmo,
          ih tail hcr]

/-- C3 (amended): in each ranging round, every destination mac in the
session's dst list contributes the measurement toward the Anchor with that
mac when such an anchor exists, and — independently, not exclusively — the
measurement toward a peer Device found by `get_device_by_mac` (Active
session with the same id, session mac equal to the destination mac,
compatible app config); when both exist, both measurements are appended
(anchor first), so a destination mac contributes up to two measurements. -/
theorem C3_per_mac_contributions (geo : GeoFn) (canStart : CanStartFn)
    (p : Pica) (device_handle session_id : Nat) (device : Device)
    (session : Session) (p' : Pica) (ntf : ShortMacTwoWaySessionInfoNtf)
    (hd : alookup device_handle p.devices = some device)
    (hs : alookup session_id device.sessions = some session)
    (hr : Pica.ranging geo canStart p device_handle session_id
      = some (p', some ntf)) :
    ntf.two_way_ranging_measurements
      = session.get_dst_mac_addresses.flatMap (fun mac =>
          anchorContribution geo p device mac
            ++ peerContribution geo canStart p device session session_id mac) := by
  unfold Pica.ranging at hr
  rw [hd] at hr
  dsimp only at hr
  rw [hs] at hr
  dsimp only at hr
  cases hcm : collectMeasurements geo canStart p device session session_id
      session.get_dst_mac_addresses with
  | none => rw [hcm] at hr; simp at hr
  | some measurements =>
    rw [hcm] at hr
    dsimp only at hr
    by_cases hcfg : session.is_ranging_data_ntf_enabled ≠ RangeDataNtfConfig.Disable
    · rw [if_pos hcfg] at hr
      simp only [Option.some_inj, Prod.mk.injEq] at hr
      have hn := hr.2
      rw [← hn]
      exact collectMeasurements_flatMap geo canStart p device session session_id
        session.get_dst_mac_addresses measurements hcm
    · rw [if_neg hcfg] at hr
      simp at hr

/-- Witness for C3 (amended): in `fxPica` the concrete round yields exactly
the anchor measurement followed by the peer measurement for mac `Short 5 0`. -/
theorem C3_per_mac_contributions_witness :
    ∃ (p' : Pica) (ntf : ShortMacTwoWaySessionInfoNtf),
      Pica.ranging geoZero canStartChk fxPica 0 7 = some (p', some ntf) ∧
      ntf.two_way_ranging_measurements
        = fxSessA.get_dst_mac_addresses.flatMap (fun mac =>
            anchorContribution geoZero fxPica fxDevA mac
              ++ peerContribution geoZero canStartChk fxPica fxDevA fxSessA 7 mac) := by
  obtain ⟨p', ntf, hr⟩ :
      ∃ p' ntf, Pica.ranging geoZero canStartChk fxPica 0 7 = some (p', some ntf) :=
    ⟨_, _, rfl⟩
  exact ⟨p', ntf, hr, C3_per_mac_contributions geoZero canStartChk fxPica 0 7
    fxDevA fxSessA p' ntf rfl rfl hr⟩

/-! ## C8: sequence numbers of ranging notifications -/

/-- The registry update performed by `Pica::ranging` when a notification
is sent: the session's `sequence_number` is incremented in place. -/
def bumpSeq (p : Pica) (device_handle session_id : Nat) : Pica :=
  { p with
      devices := aupdate device_handle (fun d =>
        { d with sessions := aupdate session_id (fun s =>
            { s with sequence_number := s.sequence_number + 1 }) d.sessions })
        p.devices }

lemma ranging_step (geo : GeoFn) (canStart : CanStartFn) (p : Pica)
    (device_handle session_id : Nat) (device : Device) (session : Session)
    (p' : Pica) (onf : Option ShortMacTwoWaySessionInfoNtf)
    (hd : alookup device_handle p.devices = some device)
    (hs : alookup session_id device.sessions = some session)
    (hr : Pica.ranging geo canStart p device_handle session_id = some (p', onf)) :
    (session.is_ranging_data_ntf_enabled ≠ RangeDataNtfConfig.Disable ∧
      (∃ ms, onf = some
        { sequence_number := session.sequence_number
          session_token := session_id
          rcr_indicator := 0
          current_ranging_interval := 0
          two_way_ranging_measurements := ms }) ∧
      p' = bumpSeq p device_handle session_id)
    ∨ (session.is_ranging_data_ntf_enabled = RangeDataNtfConfig.Disable ∧
       onf = none ∧ p' = p) := by
  unfold Pica.ranging at hr
  rw [hd] at hr
  dsimp only at hr
  rw [hs] at hr
  dsimp only at hr
  cases hcm : collectMeasurements geo canStart p device session session_id
      session.get_dst_mac_addresses with
  | none => rw [hcm] at hr; simp at hr
  | some ms =>
    rw [hcm] at hr
    dsimp only at hr
    by_cases hcfg : session.is_ranging_data_ntf_enabled ≠ RangeDataNtfConfig.Disable
    · rw [if_pos hcfg] at hr
      simp only [Option.some_inj, Prod.mk.injEq] at hr
      exact Or.inl ⟨hcfg, ⟨ms, hr.2.symm⟩, hr.1.symm⟩
    · rw [if_neg hcfg] at hr
      push_neg at hcfg
      simp only [Option.some_inj, Prod.mk.injEq] at hr
      exact Or.inr ⟨hcfg, hr.2.symm, hr.1.symm⟩

lemma bumpSeq_lookup (p : Pica) (device_handle session_id : Nat)
    (device : Device) (session : Session)
    (hd : alookup device_handle p.devices = some device)
    (hs : alookup session_id device.sessions = some session) :
    ∃ device', alookup device_handle (bumpSeq p device_handle session_id).devices
        = some device' ∧
      alookup session_id device'.sessions
        = some { session with sequence_number := session.sequence_number + 1 } := by
  refine ⟨_, by unfold bumpSeq; rw [alookup_aupdate_self, hd]; rfl, ?_⟩
  rw [alookup_aupdate_self, hs]
  rfl

lemma range_map_shift (s n : Nat) :
    (List.range (n + 1)).map (fun i => s + i)
      = s :: (List.range n).map (fun i => (s + 1) + i) := by
  rw [List.range_succ_eq_map]
  simp only [List.map_cons, Nat.add_zero, List.map_map]
  have hfun : ((fun i => s + i) ∘ Nat.succ) = fun i => (s + 1) + i := by
    funext i
    simp only [Function.comp_apply]
    omega
  rw [hfun]

lemma rangingRounds_seq (geo : GeoFn) (canStart : CanStartFn)
    (device_handle session_id : Nat) :
    ∀ (n : Nat) (p : Pica) (device : Device) (session : Session)
      (p' : Pica) (ntfs : List ShortMacTwoWaySessionInfoNtf),
      alookup device_handle p.devices = some device →
      alookup session_id device.sessions = some session →
      session.is_ranging_data_ntf_enabled ≠ RangeDataNtfConfig.Disable →
      rangingRounds geo canStart device_handle session_id n p = some (p', ntfs) →
      ntfs.map (fun ntf => ntf.sequence_number)
        = (List.range n).map (fun i => session.sequence_number + i) := by
  intro n
  induction n with
  | zero =>
    intro p device session p' ntfs _ _ _ hr
    unfold rangingRounds at hr
    simp only [Option.some_inj, Prod.mk.injEq] at hr
    rw [← hr.2]
    simp
  | succ n ih =>
    intro p device session p' ntfs hd hs hcfg hr
    unfold rangingRounds at hr
    cases h1 : Pica.ranging geo canStart p device_handle session_id with
    | none => rw [h1] at hr; simp at hr
    | some pr =>
      obtain ⟨p1, onf⟩ := pr
      rw [h1] at hr
      dsimp only at hr
      cases h2 : rangingRounds geo canStart device_handle session_id n p1 with
      | none => rw [h2] at hr; simp at hr
      | some pr2 =>
        obtain ⟨p2, ntfs2⟩ := pr2
        rw [h2] at hr
        simp only [Option.some_inj, Prod.mk.injEq] at hr
        rcases ranging_step geo canStart p device_handle session_id device session
            p1 onf hd hs h1 with ⟨_, ⟨ms, honf⟩, hp1⟩ | ⟨hdis, _, _⟩
        · obtain ⟨device', hd1, hs1⟩ := bumpSeq_lookup p device_handle session_id
            device session hd hs
          rw [← hp1] at hd1
          have hcfg' : Session.is_ranging_data_ntf_enabled
              { session with sequence_number := session.sequence_number + 1 }
              ≠ RangeDataNtfConfig.Disable := hcfg
          have hrec := ih p1 device'
            { session with sequence_number := session.sequence_number + 1 }
            p2 ntfs2 hd1 hs1 hcfg' h2
          rw [← hr.2, honf]
          simp only [Option.toList_some, List.cons_append, List.nil_append,
            List.map_cons, hrec]
          rw [range_map_shift]
        · exact absurd hdis hcfg

/-- C8: for a fixed (device, session), over successive ranging rounds the
sequence numbers carried by the emitted `ShortMacTwoWaySessionInfoNtf`s are
exactly initial, initial+1, ... (one notification per round, so the counter
is incremented iff a notification is emitted); when the session's
ranging-data notification config is `Disable`, the round sends nothing and
changes no state. -/
theorem C8_sequence_numbers (geo : GeoFn) (canStart : CanStartFn) (p : Pica)
    (device_handle session_id : Nat) (device : Device) (session : Session)
    (hd : alookup device_handle p.devices = some device)
    (hs : alookup session_id device.sessions = some session) :
    (session.is_ranging_data_ntf_enabled ≠ RangeDataNtfConfig.Disable →
      ∀ (n : Nat) (p' : Pica) (ntfs : List ShortMacTwoWaySessionInfoNtf),
        rangingRounds geo canStart device_handle session_id n p = some (p', ntfs) →
        ntfs.length = n ∧
        ntfs.map (fun ntf => ntf.sequence_number)
          = (List.range n).map (fun i => session.sequence_number + i)) ∧
    (session.is_ranging_data_ntf_enabled = RangeDataNtfConfig.Disable →
      ∀ (p' : Pica) (onf : Option ShortMacTwoWaySessionInfoNtf),
        Pica.ranging geo canStart p device_handle session_id = some (p', onf) →
        onf = none ∧ p' = p) := by
  constructor
  · intro hcfg n p' ntfs hr
    have hmap := rangingRounds_seq geo canStart device_handle session_id n p
      device session p' ntfs hd hs hcfg hr
    refine ⟨?_, hmap⟩
    have := congrArg List.length hmap
    simpa using this
  · intro hcfg p' onf hr
    rcases ranging_step geo canStart p device_handle session_id device session
        p' onf hd hs hr with ⟨hne, _, _⟩ | ⟨_, honf, hp⟩
    · exact absurd hcfg hne
    · exact ⟨honf, hp⟩

/-- A session configured with ranging-data notifications `Disable` and no
destinations, plus its device and registry. -/
def fxCfgD : AppConfig :=
  { device_mac_address := .Short 3 0
    dst_mac_addresses := []
    range_data_ntf_config := .Disable
    device_role := 0
    channel_number := 9
    ranging_round_usage := 2 }

def fxSessD : Session :=
  { state := .SessionStateActive, app_config := fxCfgD, sequence_number := 11,
    ranging_task := true,
    reason_code := .StateChangeWithSessionManagementCommands }

def fxDevD : Device :=
  { handle := 0, mac_address := .Short 3 0, position := fxPos,
    state := .DeviceStateActive, sessions := [(7, fxSessD)],
    n_active_sessions := 1 }

def fxPicaD : Pica :=
  { devices := [(0, fxDevD)], anchors := [], counter := 1 }

/-- Witness for C8: three concrete rounds on `fxPica` emit sequence numbers
0, 1, 2; one round on the `Disable`-configured `fxPicaD` emits nothing and
leaves the registry unchanged. -/
theorem C8_sequence_numbers_witness :
    (∃ (p' : Pica) (ntfs : List ShortMacTwoWaySessionInfoNtf),
      rangingRounds geoZero canStartChk 0 7 3 fxPica = some (p', ntfs) ∧
      ntfs.length = 3 ∧
      ntfs.map (fun ntf => ntf.sequence_number) = [0, 1, 2]) ∧
    Pica.ranging geoZero canStartChk fxPicaD 0 7 = some (fxPicaD, none) := by
  constructor
  · obtain ⟨p', ntfs, hr⟩ :
        ∃ p' ntfs, rangingRounds geoZero canStartChk 0 7 3 fxPica = some (p', ntfs) :=
      ⟨_, _, rfl⟩
    have h := (C8_sequence_numbers geoZero canStartChk fxPica 0 7 fxDevA fxSessA
      rfl rfl).1 (by decide) 3 p' ntfs hr
    exact ⟨p', ntfs, hr, h.1, by rw [h.2]; rfl⟩
  · obtain ⟨p', onf, hr⟩ :
        ∃ p' onf, Pica.ranging geoZero canStartChk fxPicaD 0 7 = some (p', onf) :=
      ⟨_, _, rfl⟩
    have h := (C8_sequence_numbers geoZero canStartChk fxPicaD 0 7 fxDevD fxSessD
      rfl rfl).2 rfl p' onf hr
    rw [hr, h.1, h.2]

/-! ## C7: in-band StopRanging -/

/-- C7: `StopRanging(mac, session_id)`: when some device owns an `Active`
session with that id whose `app_config.device_mac_address` is `mac`, the
(first) such device has that session's ranging timer cancelled, the session
moved to `Idle` with reason `SessionStoppedDueToInbandSignal`, its
`n_active_sessions` decremented, and its state set to `Ready` exactly when
the count reaches 0 (all other devices and the anchors untouched); when no
device matches, the registry is unchanged.  The hypothesis
`1 ≤ d.n_active_sessions` is the spec invariant `n_active_sessions =
count(Active sessions)`, which is positive because the matched session is
`Active`. -/
theorem C7_stop_controlee_ranging (p : Pica) (mac : MacAddress)
    (session_id : Nat) :
    ((∀ kv ∈ p.devices, stopRangingMatch mac session_id kv.2 = false) →
      p.stop_controlee_ranging mac session_id = p) ∧
    (∀ (pre : List (Nat × Device)) (k : Nat) (d : Device)
        (post : List (Nat × Device)),
      p.devices = pre ++ (k, d) :: post →
      (∀ kv ∈ pre, stopRangingMatch mac session_id kv.2 = false) →
      stopRangingMatch mac session_id d = true →
      1 ≤ d.n_active_sessions →
      ∃ s, d.get_session session_id = some s ∧
        s.session_state = SessionState.SessionStateActive ∧
        s.app_config.device_mac_address = mac ∧
        p.stop_controlee_ranging mac session_id
          = { p with devices := pre ++ (k, stopDevice d session_id) :: post } ∧
        (∃ s', alookup session_id (stopDevice d session_id).sessions = some s' ∧
          s'.ranging_task = false ∧
          s'.state = SessionState.SessionStateIdle ∧
          s'.reason_code = ReasonCode.SessionStoppedDueToInbandSignal ∧
          s'.sequence_number = s.sequence_number ∧
          s'.app_config = s.app_config) ∧
        (stopDevice d session_id).n_active_sessions + 1 = d.n_active_sessions ∧
        (stopDevice d session_id).state
          = (if d.n_active_sessions - 1 = 0 then DeviceState.DeviceStateReady
             else d.state)) := by
  constructor
  · intro hnone
    unfold Pica.stop_controlee_ranging
    rw [updFirst_of_none _ _ p.devices (fun kv hkv => hnone kv hkv)]
  · intro pre k d post hdev hpre hmatch hn
    have hses : ∃ s, d.get_session session_id = some s ∧
        s.session_state = SessionState.SessionStateActive ∧
        s.app_config.device_mac_address = mac := by
      unfold stopRangingMatch at hmatch
      cases hg : d.get_session session_id with
      | none => rw [hg] at hmatch; exact absurd hmatch (by simp)
      | some s =>
        rw [hg] at hmatch
        simp only [Bool.and_eq_true, beq_iff_eq] at hmatch
        exact ⟨s, rfl, hmatch.2, hmatch.1⟩
    obtain ⟨s, hg, hst, hmac⟩ := hses
    have hsessions : (stopDevice d session_id).sessions
        = aupdate session_id (fun s0 =>
            (s0.stop_ranging_task).set_state SessionState.SessionStateIdle
              ReasonCode.SessionStoppedDueToInbandSignal) d.sessions := by
      unfold stopDevice
      by_cases h0 : d.n_active_sessions - 1 = 0 <;>
        simp [h0, Device.set_state]
    refine ⟨s, hg, hst, hmac, ?_, ?_, ?_, ?_⟩
    · unfold Pica.stop_controlee_ranging
      rw [hdev]
      rw [updFirst_found (fun kv => stopRangingMatch mac session_id kv.2)
        (fun kv => (kv.1, stopDevice kv.2 session_id)) pre (k, d) post
        (fun kv hkv => hpre kv hkv) hmatch]
    · refine ⟨(s.stop_ranging_task).set_state SessionState.SessionStateIdle
        ReasonCode.SessionStoppedDueToInbandSignal, ?_, rfl, rfl, rfl, rfl, rfl⟩
      rw [hsessions, alookup_aupdate_self]
      unfold Device.get_session at hg
      rw [hg]
      rfl
    · unfold stopDevice
      by_cases h0 : d.n_active_sessions - 1 = 0 <;>
        simp [h0, Device.set_state] <;> omega
    · unfold stopDevice
      by_cases h0 : d.n_active_sessions - 1 = 0 <;>
        simp [h0, Device.set_state]

/-- Witness for C7: the concrete in-band stop on `fxPica` (device 1 owns
the matching `Active` session) and a no-match stop that leaves the registry
unchanged. -/
theorem C7_stop_controlee_ranging_witness :
    Pica.stop_controlee_ranging fxPica (.Short 200 200) 7 = fxPica ∧
    ∃ s, fxDevB.get_session 7 = some s ∧
      s.session_state = SessionState.SessionStateActive ∧
      s.app_config.device_mac_address = MacAddress.Short 5 0 ∧
      Pica.stop_controlee_ranging fxPica (.Short 5 0) 7
        = { fxPica with devices := [(0, fxDevA)] ++ (1, stopDevice fxDevB 7) :: [] } ∧
      (∃ s', alookup 7 (stopDevice fxDevB 7).sessions = some s' ∧
        s'.ranging_task = false ∧
        s'.state = SessionState.SessionStateIdle ∧
        s'.reason_code = ReasonCode.SessionStoppedDueToInbandSignal ∧
        s'.sequence_number = s.sequence_number ∧
        s'.app_config = s.app_config) ∧
      (stopDevice fxDevB 7).n_active_sessions + 1 = fxDevB.n_active_sessions ∧
      (stopDevice fxDevB 7).state
        = (if fxDevB.n_active_sessions - 1 = 0 then DeviceState.DeviceStateReady
           else fxDevB.state) := by
  constructor
  · exact (C7_stop_controlee_ranging fxPica (.Short 200 200) 7).1 (by decide)
  · exact (C7_stop_controlee_ranging fxPica (.Short 5 0) 7).2
      [(0, fxDevA)] 1 fxDevB [] rfl (by decide) (by decide) (by decide)

/-! ## C9: CreateAnchor -/

/-- C9: `CreateAnchor(mac, pos)`: when the mac is already held by any
participant (an anchor, or any device's current mac_address) the reply is
`DeviceAlreadyExists(mac)` and the registry is unchanged (no event);
otherwise `Anchor{mac, pos}` is inserted into `anchors`, a
`DeviceAdded(Anchor)` event is emitted, and the reply is `Ok`. -/
theorem C9_create_anchor (p : Pica) (mac : MacAddress) (pos : Position) :
    (((alookup mac p.anchors).isSome = true ∨
      p.devices.any (fun kv => kv.2.mac_address == mac) = true) →
      p.create_anchor mac pos
        = (p, [], .err (.DeviceAlreadyExists mac))) ∧
    (alookup mac p.anchors = none →
     p.devices.any (fun kv => kv.2.mac_address == mac) = false →
      p.create_anchor mac pos
        = ({ p with anchors := (mac, ⟨mac, pos⟩) :: p.anchors },
           [PicaEvent.DeviceAdded Category.Anchor mac pos], .ok)) := by
  constructor
  · intro h
    have hc : (p.get_category mac).isSome = true := by
      unfold Pica.get_category
      rcases h with h | h
      · simp [h]
      · by_cases ha : (alookup mac p.anchors).isSome = true <;> simp [ha, h]
    unfold Pica.create_anchor
    rw [if_pos hc]
  · intro ha hd
    unfold Pica.create_anchor Pica.get_category
    simp [ha, hd]

/-- Witness for C9: on `fxPica`, creating an anchor at the taken mac
`Short 5 0` (an anchor's mac) or `Short 9 0` (device 0's mac) fails and
changes nothing; creating one at the fresh mac `Short 200 0` inserts it,
emits `DeviceAdded(Anchor)` and replies `Ok`. -/
theorem C9_create_anchor_witness :
    Pica.create_anchor fxPica (.Short 5 0) fxPos
      = (fxPica, [], .err (.DeviceAlreadyExists (.Short 5 0))) ∧
    Pica.create_anchor fxPica (.Short 9 0) fxPos
      = (fxPica, [], .err (.DeviceAlreadyExists (.Short 9 0))) ∧
    Pica.create_anchor fxPica (.Short 200 0) fxPos
      = ({ fxPica with
            anchors := (MacAddress.Short 200 0,
              ⟨MacAddress.Short 200 0, fxPos⟩) :: fxPica.anchors },
         [PicaEvent.DeviceAdded Category.Anchor (.Short 200 0) fxPos], .ok) := by
  refine ⟨?_, ?_, ?_⟩
  · exact (C9_create_anchor fxPica (.Short 5 0) fxPos).1 (Or.inl (by decide))
  · exact (C9_create_anchor fxPica (.Short 9 0) fxPos).1 (Or.inr (by decide))
  · exact (C9_create_anchor fxPica (.Short 200 0) fxPos).2 (by decide) (by decide)

/-! ## C10: InitUciDevice -/

/-- C10: `InitUciDevice(mac, pos)`: the core looks the device up by its
current mac address (equal to the argument), sets the found device's
`mac_address` to `mac` and its `position` to `pos` and replies `Ok`; when
no device carries that mac the reply is `DeviceNotFound(mac)` and no
device is modified. -/
theorem C10_init_uci_device (p : Pica) (mac : MacAddress) (pos : Position) :
    ((∀ kv ∈ p.devices, (kv.2.mac_address == mac) = false) →
      p.init_uci_device mac pos = (p, .err (.DeviceNotFound mac))) ∧
    (∀ (pre : List (Nat × Device)) (k : Nat) (d : Device)
        (post : List (Nat × Device)),
      p.devices = pre ++ (k, d) :: post →
      (∀ kv ∈ pre, (kv.2.mac_address == mac) = false) →
      d.mac_address = mac →
      p.init_uci_device mac pos
        = ({ p with devices :=
              pre ++ (k, { d with mac_address := mac, position := pos }) :: post },
           .ok)) := by
  constructor
  · intro h
    unfold Pica.init_uci_device
    have hf : (p.devices.map (fun kv => kv.2)).find?
        (fun d => d.mac_address == mac) = none := by
      rw [List.find?_eq_none]
      intro x hx
      obtain ⟨kv, hkv, rfl⟩ := List.mem_map.mp hx
      simp [h kv hkv]
    rw [hf]
  · intro pre k d post hdev hpre hd
    unfold Pica.init_uci_device
    have hf : (p.devices.map (fun kv => kv.2)).find?
        (fun dv => dv.mac_address == mac) = some d := by
      rw [hdev, List.map_append, List.map_cons]
      exact find?_append_cons (fun dv => dv.mac_address == mac)
        (pre.map (fun kv => kv.2)) d (post.map (fun kv => kv.2))
        (fun y hy => by
          obtain ⟨kv, hkv, rfl⟩ := List.mem_map.mp hy
          exact hpre kv hkv)
        (by simp [hd])
    rw [hf]
    dsimp only
    rw [hdev, updFirst_found (fun kv => kv.2.mac_address == mac)
      (fun kv => (kv.1, { kv.2 with mac_address := mac, position := pos }))
      pre (k, d) post hpre (by simp [hd])]

def fxPosNew : Position := { x := 1, y := 2, z := 3, azimuth := 0, elevation := 0 }

def fxDevBNew : Device :=
  { fxDevB with mac_address := MacAddress.Short 77 0, position := fxPosNew }

/-- Witness for C10: on `fxPica`, initializing mac `Short 77 0` (device 1's
current mac) updates that device's mac and position and replies `Ok`;
initializing the unknown mac `Short 99 0` replies `DeviceNotFound` and
changes nothing. -/
theorem C10_init_uci_device_witness :
    Pica.init_uci_device fxPica (.Short 99 0) fxPos
      = (fxPica, .err (.DeviceNotFound (.Short 99 0))) ∧
    Pica.init_uci_device fxPica (.Short 77 0) fxPosNew
      = ({ fxPica with devices := [(0, fxDevA)] ++ (1, fxDevBNew) :: [] }, .ok) := by
  constructor
  · exact (C10_init_uci_device fxPica (.Short 99 0) fxPos).1 (by decide)
  · exact (C10_init_uci_device fxPica (.Short 77 0) fxPosNew).2
      [(0, fxDevA)] 1 fxDevB [] rfl (by decide) (by decide)
